import Mathlib

/-!
Shallow embedding of `src/src/ng/exceptionHandler.js` (AngularJS excerpt):
the module loader (`setupModuleLoader` / `angular.module`) and the
`$exceptionHandler` provider.

Modelling choices:
  * Module descriptors are JavaScript objects with identity; we model a heap
    of descriptors (`List (ModuleDesc α)`, addressed by index) so that
    "returns / caches the very same object" is expressible.
  * The registry `modules` is a name-keyed association list whose stored value
    mirrors the three JS states of `modules[name]`: key absent, key bound to
    `null` (`some none` here, set transiently by the overwrite step), or key
    bound to a descriptor reference (`some (some id)`).
  * `requires` is `Option (List String)`: `none` for an absent argument.
    JavaScript truthiness of an array value is `true` regardless of the
    array's contents (an empty array is truthy), so the source's
    `if (requires && ...)` / `if (!requires)` tests become `req.isSome`.
  * Arguments of registration calls and run blocks are opaque values of a
    type parameter `α`; the loader never inspects them, matching the source,
    which only stores `arguments`.
  * A throw (`throw Error('No module: ' + name)`) is an `Except.error`
    result; the state component returned alongside it is the registry state
    at the moment of the throw.
-/

/-- One module descriptor (the `moduleInstance` object of the source):
`name`, `requires`, the private `_invokeQueue` of
`[provider, method, arguments]` tuples and the private `_runBlocks` list. -/
structure ModuleDesc (α : Type) where
  name : String
  requires : List String
  invokeQueue : List (String × String × List α)
  runBlocks : List α
deriving DecidableEq, Repr

/-- The loader's state: the heap of allocated descriptors (a descriptor
reference is an index into it) and the `modules` registry mapping a module
name to `null` (`some none`) or to a descriptor reference (`some (some id)`). -/
structure LoaderState (α : Type) where
  heap : List (ModuleDesc α)
  modules : List (String × Option Nat)
deriving DecidableEq, Repr

/-- Property lookup on the `modules` object: `none` when the key is absent,
otherwise the stored value (which may itself be the `null` marker). -/
def lookupBinding (m : List (String × Option Nat)) (name : String) : Option (Option Nat) :=
  match m with
  | [] => none
  | (k, v) :: rest => if k = name then some v else lookupBinding rest name

/-- `modules.hasOwnProperty(name)`: the key is present (even if bound to `null`). -/
def hasBinding (m : List (String × Option Nat)) (name : String) : Bool :=
  (lookupBinding m name).isSome

/-- Truthiness of `modules[name]` as used by `ensure`: only a binding to an
actual descriptor reference is truthy (`undefined` and `null` are falsy). -/
def lookupTruthy (m : List (String × Option Nat)) (name : String) : Option Nat :=
  match lookupBinding m name with
  | some (some id) => some id
  | _ => none

/-- `modules[name] = v`: overwrite the binding if the key is present,
otherwise add it. -/
def setBindingVal (m : List (String × Option Nat)) (name : String) (v : Option Nat) :
    List (String × Option Nat) :=
  match m with
  | [] => [(name, v)]
  | (k, w) :: rest => if k = name then (k, v) :: rest else (k, w) :: setBindingVal rest name v

/-- `modules[name] = null` (the overwrite step of `module`). -/
def setNull (m : List (String × Option Nat)) (name : String) : List (String × Option Nat) :=
  setBindingVal m name none

/-- `modules[name] = id` (binding a name to a freshly built descriptor). -/
def setBinding (m : List (String × Option Nat)) (name : String) (id : Nat) :
    List (String × Option Nat) :=
  setBindingVal m name (some id)

/-- The body of the factory passed to `ensure`, after the `!requires` throw
check: build `moduleInstance` with empty `invokeQueue` / `runBlocks`, then
`if (configFn) moduleInstance.config(configFn)`, which pushes the tuple
`['$injector', 'invoke', [configFn]]` onto the invoke queue. -/
def buildModule {α : Type} (name : String) (rs : List String) (configFn : Option α) :
    ModuleDesc α :=
  { name := name
    requires := rs
    invokeQueue :=
      match configFn with
      | some f => [("$injector", "invoke", [f])]
      | none => []
    runBlocks := [] }

/-- `angular.module(name, requires, configFn)` from the source, with the
one-line helper `ensure(obj, name, factory) = obj[name] || (obj[name] = factory())`
inlined.  Steps, in source order:
1. `if (requires && modules.hasOwnProperty(name)) modules[name] = null;`
2. `ensure`: if `modules[name]` is truthy return it, else run the factory —
   which throws `'No module: ' + name` when `requires` is absent, and
   otherwise allocates a fresh descriptor, stores it under `name` and
   returns it. -/
def module {α : Type} (s : LoaderState α) (name : String) (req : Option (List String))
    (configFn : Option α) : Except String Nat × LoaderState α :=
  let s1 := if req.isSome && hasBinding s.modules name
            then { s with modules := setNull s.modules name }
            else s
  match lookupTruthy s1.modules name with
  | some id => (Except.ok id, s1)
  | none =>
    match req with
    | none => (Except.error ("No module: " ++ name), s1)
    | some rs =>
      let d := buildModule name rs configFn
      let id := s1.heap.length
      (Except.ok id, { heap := s1.heap ++ [d], modules := setBinding s1.modules name id })

/-- The fresh loader state produced by `setupModuleLoader()`
(`var modules = {}`), before any module is registered. -/
def setupModuleLoader (α : Type) : LoaderState α :=
  { heap := [], modules := [] }

/-- Replace the descriptor stored at reference `id` (in-place mutation of the
object the reference points to). -/
def updateDesc {α : Type} (s : LoaderState α) (id : Nat) (f : ModuleDesc α → ModuleDesc α) :
    LoaderState α :=
  match s.heap[id]? with
  | some d => { s with heap := s.heap.set id (f d) }
  | none => s

/-- `invokeLater(provider, method, insertMethod)` from the source: the
returned registration method pushes `[provider, method, arguments]` onto the
module's invoke queue and returns `moduleInstance` (the same reference `id`).
The `insertMethod` parameter is accepted but ignored by the body: the line
using it is commented out (`FIXME(rado)`), and `invokeQueue.push` is always
used. -/
def invokeLater {α : Type} (provider method : String) (insertMethod : Option String)
    (s : LoaderState α) (id : Nat) (args : List α) : Nat × LoaderState α :=
  (id,
   updateDesc s id (fun d => { d with invokeQueue := d.invokeQueue ++ [(provider, method, args)] }))

/-- A call to one of the public methods of a module descriptor, with the
opaque argument list (`arguments`) it was invoked with. -/
inductive MCall (α : Type) where
  | provider (args : List α)
  | factory (args : List α)
  | service (args : List α)
  | value (args : List α)
  | constant (args : List α)
  | filter (args : List α)
  | controller (args : List α)
  | directive (args : List α)
  | config (args : List α)
  | run (fn : α)
deriving DecidableEq, Repr

/-- Dispatch a public-method call on the descriptor referenced by `id`.  Each
registration method is the corresponding `invokeLater(...)` instantiation of
the source; `run` pushes onto `runBlocks` and returns `moduleInstance`. -/
def applyCall {α : Type} (s : LoaderState α) (id : Nat) : MCall α → Nat × LoaderState α
  | .provider args => invokeLater "$provide" "provider" none s id args
  | .factory args => invokeLater "$provide" "factory" none s id args
  | .service args => invokeLater "$provide" "service" none s id args
  | .value args => invokeLater "$provide" "value" none s id args
  | .constant args => invokeLater "$provide" "constant" (some "unshift") s id args
  | .filter args => invokeLater "$filterProvider" "register" none s id args
  | .controller args => invokeLater "$controllerProvider" "register" none s id args
  | .directive args => invokeLater "$compileProvider" "directive" none s id args
  | .config args => invokeLater "$injector" "invoke" none s id args
  | .run fn => (id, updateDesc s id (fun d => { d with runBlocks := d.runBlocks ++ [fn] }))

/-- The `[provider, method, arguments]` tuple a registration call records,
`none` for `run` (which records into `runBlocks` instead). -/
def regRecord {α : Type} : MCall α → Option (String × String × List α)
  | .provider args => some ("$provide", "provider", args)
  | .factory args => some ("$provide", "factory", args)
  | .service args => some ("$provide", "service", args)
  | .value args => some ("$provide", "value", args)
  | .constant args => some ("$provide", "constant", args)
  | .filter args => some ("$filterProvider", "register", args)
  | .controller args => some ("$controllerProvider", "register", args)
  | .directive args => some ("$compileProvider", "directive", args)
  | .config args => some ("$injector", "invoke", args)
  | .run _ => none

/-- Fluent chaining: apply each call to the reference returned by the
previous one (`m.factory(...).service(...)...`). -/
def applyCalls {α : Type} (s : LoaderState α) (id : Nat) : List (MCall α) → Nat × LoaderState α
  | [] => (id, s)
  | c :: cs =>
    let r := applyCall s id c
    applyCalls r.2 r.1 cs

/-- The invoke-queue tuples a sequence of calls records, in call order. -/
def recordedTuples {α : Type} : List (MCall α) → List (String × String × List α)
  | [] => []
  | c :: cs =>
    match regRecord c with
    | some t => t :: recordedTuples cs
    | none => recordedTuples cs

/-- The run blocks a sequence of calls registers, in call order. -/
def runFns {α : Type} : List (MCall α) → List α
  | [] => []
  | .run f :: cs => f :: runFns cs
  | .provider _ :: cs => runFns cs
  | .factory _ :: cs => runFns cs
  | .service _ :: cs => runFns cs
  | .value _ :: cs => runFns cs
  | .constant _ :: cs => runFns cs
  | .filter _ :: cs => runFns cs
  | .controller _ :: cs => runFns cs
  | .directive _ :: cs => runFns cs
  | .config _ :: cs => runFns cs

/-- A logger, as seen by the exception handler: only its `error` method is
used.  `β` is whatever a call to `error` produces (for a stateful logger, a
state transformer). -/
structure LogService (α β : Type) where
  error : List α → β

/-- `$ExceptionHandlerProvider.$get`'s factory body: given `$log`, return the
service `function(exception, cause) { $log.error.apply($log, arguments); }` —
the whole `arguments` list is forwarded to `$log.error`, unchanged. -/
def ExceptionHandlerProviderGet {α β : Type} (log : LogService α β) : List α → β :=
  fun args => log.error args

/-- The dependency annotation of `this.$get = ['$log', function($log){...}]`. -/
def ExceptionHandlerProviderDeps : List String := ["$log"]

/-- A concrete logger whose `error` appends the received argument list to a
journal of calls (models `$log.error` logging to the console). -/
def collectingLog (α : Type) : LogService α (List (List α) → List (List α)) :=
  { error := fun args st => st ++ [args] }

/-! ### Registry lemmas -/

theorem lookupBinding_setBindingVal_self (m : List (String × Option Nat)) (name : String)
    (v : Option Nat) : lookupBinding (setBindingVal m name v) name = some v := by
  induction m with
  | nil => simp [setBindingVal, lookupBinding]
  | cons p rest ih =>
    obtain ⟨k, w⟩ := p
    by_cases hk : k = name
    · simp [setBindingVal, lookupBinding, hk]
    · simp [setBindingVal, lookupBinding, hk, ih]

theorem lookupBinding_setBindingVal_ne (m : List (String × Option Nat)) (n name : String)
    (v : Option Nat) (h : n ≠ name) :
    lookupBinding (setBindingVal m name v) n = lookupBinding m n := by
  induction m with
  | nil =>
    have h2 : name ≠ n := Ne.symm h
    simp [setBindingVal, lookupBinding, h2]
  | cons p rest ih =>
    obtain ⟨k, w⟩ := p
    by_cases hk : k = name
    · subst hk
      have h2 : k ≠ n := Ne.symm h
      simp [setBindingVal, lookupBinding, h2]
    · simp [setBindingVal, lookupBinding, hk, ih]

theorem hasBinding_of_lookupTruthy (m : List (String × Option Nat)) (name : String) (id : Nat)
    (h : lookupTruthy m name = some id) : hasBinding m name = true := by
  unfold lookupTruthy at h
  unfold hasBinding
  cases hb : lookupBinding m name with
  | none => rw [hb] at h; simp at h
  | some v => simp

theorem lookupTruthy_eq_none_of_not_hasBinding (m : List (String × Option Nat)) (name : String)
    (h : hasBinding m name = false) : lookupTruthy m name = none := by
  unfold hasBinding at h
  unfold lookupTruthy
  cases hb : lookupBinding m name with
  | none => simp
  | some v => rw [hb] at h; simp at h

theorem lookupTruthy_setNull (m : List (String × Option Nat)) (name : String) :
    lookupTruthy (setNull m name) name = none := by
  simp [lookupTruthy, setNull, lookupBinding_setBindingVal_self]

theorem lookupTruthy_setBinding (m : List (String × Option Nat)) (name : String) (id : Nat) :
    lookupTruthy (setBinding m name id) name = some id := by
  simp [lookupTruthy, setBinding, lookupBinding_setBindingVal_self]

/-! ### List helper -/

theorem set_of_getElem_eq {β : Type} :
    ∀ (l : List β) (i : Nat) (a : β), l[i]? = some a → l.set i a = l
  | [], i, a, h => by simp at h
  | b :: l, 0, a, h => by
    simp at h
    simp [List.set, h]
  | b :: l, i + 1, a, h => by
    simp at h
    simp [List.set, set_of_getElem_eq l i a h]

/-! ### Method-call lemmas -/

theorem applyCall_fst {α : Type} (s : LoaderState α) (id : Nat) (c : MCall α) :
    (applyCall s id c).1 = id := by
  cases c <;> rfl

theorem applyCall_reg {α : Type} (s : LoaderState α) (id : Nat) (d : ModuleDesc α)
    (c : MCall α) (t : String × String × List α)
    (hd : s.heap[id]? = some d) (ht : regRecord c = some t) :
    applyCall s id c =
      (id, { s with heap := s.heap.set id { d with invokeQueue := d.invokeQueue ++ [t] } }) := by
  cases c <;> simp_all [regRecord, applyCall, invokeLater, updateDesc]

theorem applyCall_run_eq {α : Type} (s : LoaderState α) (id : Nat) (d : ModuleDesc α) (fn : α)
    (hd : s.heap[id]? = some d) :
    applyCall s id (MCall.run fn) =
      (id, { s with heap := s.heap.set id { d with runBlocks := d.runBlocks ++ [fn] } }) := by
  simp [applyCall, updateDesc, hd]

theorem regRecord_eq_none {α : Type} (c : MCall α) (h : regRecord c = none) :
    ∃ fn, c = MCall.run fn := by
  cases c <;> simp_all [regRecord]

theorem recordedTuples_cons_reg {α : Type} (c : MCall α) (t : String × String × List α)
    (cs : List (MCall α)) (h : regRecord c = some t) :
    recordedTuples (c :: cs) = t :: recordedTuples cs := by
  cases c <;> simp_all [regRecord, recordedTuples]

theorem runFns_cons_reg {α : Type} (c : MCall α) (t : String × String × List α)
    (cs : List (MCall α)) (h : regRecord c = some t) :
    runFns (c :: cs) = runFns cs := by
  cases c <;> simp_all [regRecord, runFns]

theorem recordedTuples_cons_run {α : Type} (fn : α) (cs : List (MCall α)) :
    recordedTuples (MCall.run fn :: cs) = recordedTuples cs := rfl

theorem runFns_cons_run {α : Type} (fn : α) (cs : List (MCall α)) :
    runFns (MCall.run fn :: cs) = fn :: runFns cs := rfl

theorem applyCalls_fst {α : Type} (cs : List (MCall α)) :
    ∀ (s : LoaderState α) (id : Nat), (applyCalls s id cs).1 = id := by
  induction cs with
  | nil => intro s id; rfl
  | cons c cs ih =>
    intro s id
    show (applyCalls (applyCall s id c).2 (applyCall s id c).1 cs).1 = id
    rw [ih, applyCall_fst]

theorem applyCalls_spec {α : Type} (cs : List (MCall α)) :
    ∀ (s : LoaderState α) (id : Nat) (d : ModuleDesc α), s.heap[id]? = some d →
    applyCalls s id cs =
      (id, { s with heap := s.heap.set id ({ d with
        invokeQueue := d.invokeQueue ++ recordedTuples cs,
        runBlocks := d.runBlocks ++ runFns cs }) }) := by
  induction cs with
  | nil =>
    intro s id d hd
    show (id, s) = _
    rw [recordedTuples, runFns]
    simp only [List.append_nil]
    rw [set_of_getElem_eq s.heap id d hd]
  | cons c cs ih =>
    intro s id d hd
    have hlt : id < s.heap.length := (List.getElem?_eq_some_iff.mp hd).1
    cases hr : regRecord c with
    | some t =>
      have h1 := applyCall_reg s id d c t hd hr
      show applyCalls (applyCall s id c).2 (applyCall s id c).1 cs = _
      rw [h1]
      have hd1 :
          (LoaderState.mk (s.heap.set id ({ d with invokeQueue := d.invokeQueue ++ [t] }))
            s.modules).heap[id]? =
          some ({ d with invokeQueue := d.invokeQueue ++ [t] }) := by
        simp [List.getElem?_set_self hlt]
      rw [ih _ _ _ hd1]
      simp [List.set_set, recordedTuples_cons_reg c t cs hr, runFns_cons_reg c t cs hr,
        List.append_assoc]
    | none =>
      obtain ⟨fn, rfl⟩ := regRecord_eq_none c hr
      have h1 := applyCall_run_eq s id d fn hd
      show applyCalls (applyCall s id (MCall.run fn)).2 (applyCall s id (MCall.run fn)).1 cs = _
      rw [h1]
      have hd1 :
          (LoaderState.mk (s.heap.set id ({ d with runBlocks := d.runBlocks ++ [fn] }))
            s.modules).heap[id]? =
          some ({ d with runBlocks := d.runBlocks ++ [fn] }) := by
        simp [List.getElem?_set_self hlt]
      rw [ih _ _ _ hd1]
      simp [List.set_set, recordedTuples_cons_run, runFns_cons_run, List.append_assoc]

/-! ### `module` unfolding lemmas -/

theorem module_none_of_no_binding {α : Type} (s : LoaderState α) (name : String) (cfg : Option α)
    (h : hasBinding s.modules name = false) :
    module s name none cfg = (Except.error ("No module: " ++ name), s) := by
  have h2 : lookupTruthy s.modules name = none :=
    lookupTruthy_eq_none_of_not_hasBinding s.modules name h
  simp [module, h2]

theorem module_retrieve_of_truthy {α : Type} (s : LoaderState α) (name : String) (cfg : Option α)
    (id : Nat) (h : lookupTruthy s.modules name = some id) :
    module s name none cfg = (Except.ok id, s) := by
  simp [module, h]

theorem module_some_of_binding {α : Type} (s : LoaderState α) (name : String) (rs : List String)
    (cfg : Option α) (id : Nat) (h : lookupTruthy s.modules name = some id) :
    module s name (some rs) cfg =
      (Except.ok s.heap.length,
       { heap := s.heap ++ [buildModule name rs cfg],
         modules := setBinding (setNull s.modules name) name s.heap.length }) := by
  have hb : hasBinding s.modules name = true := hasBinding_of_lookupTruthy s.modules name id h
  simp [module, hb, lookupTruthy_setNull]

theorem module_some_of_no_binding {α : Type} (s : LoaderState α) (name : String)
    (rs : List String) (cfg : Option α) (h : hasBinding s.modules name = false) :
    module s name (some rs) cfg =
      (Except.ok s.heap.length,
       { heap := s.heap ++ [buildModule name rs cfg],
         modules := setBinding s.modules name s.heap.length }) := by
  have h2 : lookupTruthy s.modules name = none :=
    lookupTruthy_eq_none_of_not_hasBinding s.modules name h
  simp [module, h, h2]

theorem module_then_retrieve {α : Type} (s s2 : LoaderState α) (name : String)
    (rs : List String) (cfg cfg2 : Option α) (id : Nat)
    (h : module s name (some rs) cfg = (Except.ok id, s2)) :
    module s2 name none cfg2 = (Except.ok id, s2) := by
  have key : lookupTruthy s2.modules name = some id := by
    simp only [module] at h
    split at h
    case h_1 j heq =>
      rw [Prod.mk.injEq] at h
      obtain ⟨h1, h2⟩ := h
      injection h1 with h1
      subst h1
      subst h2
      exact heq
    case h_2 heq =>
      rw [Prod.mk.injEq] at h
      obtain ⟨h1, h2⟩ := h
      injection h1 with h1
      subst h1
      subst h2
      exact lookupTruthy_setBinding _ name _
  exact module_retrieve_of_truthy s2 name cfg2 id key

/-! ### Concrete states used by the witnesses -/

/-- Loader state after `angular.module('m', ['dep'])` on a fresh loader. -/
def stateM : LoaderState Nat := (module (setupModuleLoader Nat) "m" (some ["dep"]) none).2

/-- Loader state holding one module `"m"` with an empty dependency list. -/
def stateE : LoaderState Nat :=
  { heap := [{ name := "m", requires := [], invokeQueue := [], runBlocks := [] }],
    modules := [("m", some 0)] }

/-! ### Claims -/

/-- C1: for every module name with no entry in the registry, calling
`angular.module(name)` with `requires` absent throws
`'No module: ' + name` and returns no descriptor; the loader state is
unchanged. -/
theorem angular_module_C1 {α : Type} (s : LoaderState α) (name : String) (cfg : Option α)
    (h : hasBinding s.modules name = false) :
    module s name none cfg = (Except.error ("No module: " ++ name), s) :=
  module_none_of_no_binding s name cfg h

/-- Witness for C1 at the fresh loader state and the name `"mod"`. -/
theorem angular_module_C1_witness :
    hasBinding (setupModuleLoader Nat).modules "mod" = false ∧
    module (setupModuleLoader Nat) "mod" none none =
      (Except.error ("No module: " ++ "mod"), setupModuleLoader Nat) :=
  ⟨rfl, angular_module_C1 (setupModuleLoader Nat) "mod" none rfl⟩

/-- C2 counterexample: re-registering `"m"` with the EMPTY dependency list
`[]` does not leave the existing descriptor in place — an empty array is
truthy in JavaScript, so `module('m', [])` also overwrites: the state
changes, a fresh reference (1, not the cached 0) is returned, and the
registry now binds `"m"` to the fresh descriptor. -/
theorem angular_module_C2_counterexample :
    (module stateM "m" (some ([] : List String)) none).2 ≠ stateM ∧
    (module stateM "m" (some ([] : List String)) none).1 = Except.ok 1 ∧
    lookupTruthy (module stateM "m" (some ([] : List String)) none).2.modules "m" = some 1 ∧
    lookupTruthy stateM.modules "m" = some 0 :=
  ⟨by decide, rfl, rfl, rfl⟩

/-- C2 (amended): for every module name already bound in the registry,
calling `angular.module(name, requires)` with ANY supplied dependency list
(empty or not) silently discards the previous registration — no error, the
registry rebinds the name to a freshly built descriptor with the new
requires list and empty queues, and that fresh descriptor is returned;
only a call with the dependency list absent leaves the existing descriptor
in place. -/
theorem angular_module_C2 {α : Type} (s : LoaderState α) (name : String) (rs : List String)
    (id : Nat) (h : lookupTruthy s.modules name = some id) :
    (module s name (some rs) none).1 = Except.ok s.heap.length ∧
    (module s name (some rs) none).2.heap[s.heap.length]? =
      some { name := name, requires := rs, invokeQueue := [], runBlocks := [] } ∧
    lookupTruthy (module s name (some rs) none).2.modules name = some s.heap.length ∧
    module s name none none = (Except.ok id, s) := by
  have hm := module_some_of_binding s name rs none id h
  refine ⟨?_, ?_, ?_, module_retrieve_of_truthy s name none id h⟩
  · rw [hm]
  · rw [hm]
    show (s.heap ++ [buildModule name rs none])[s.heap.length]? = _
    rw [List.getElem?_concat_length]
    rfl
  · rw [hm]
    exact lookupTruthy_setBinding _ name _

/-- Witness for the amended C2 at `stateM` (where `"m"` is bound to 0). -/
theorem angular_module_C2_witness :
    lookupTruthy stateM.modules "m" = some 0 ∧
    ((module stateM "m" (some ["a"]) none).1 = Except.ok stateM.heap.length ∧
     (module stateM "m" (some ["a"]) none).2.heap[stateM.heap.length]? =
       some { name := "m", requires := ["a"], invokeQueue := [], runBlocks := [] } ∧
     lookupTruthy (module stateM "m" (some ["a"]) none).2.modules "m" =
       some stateM.heap.length ∧
     module stateM "m" none none = (Except.ok 0, stateM)) :=
  ⟨rfl, angular_module_C2 stateM "m" ["a"] 0 rfl⟩

/-- C3: each registration method among provider, factory, service, value,
constant, filter, controller, directive and config only appends its one
`[providerName, methodName, arguments]` tuple to that module's invoke
queue; the supplied arguments are stored untouched (never executed), the
run-block list, every other module and the registry are unchanged. -/
theorem angular_module_C3 {α : Type} (s : LoaderState α) (id : Nat) (d : ModuleDesc α)
    (c : MCall α) (t : String × String × List α)
    (hd : s.heap[id]? = some d) (ht : regRecord c = some t) :
    applyCall s id c =
      (id, { s with heap := s.heap.set id ({ d with invokeQueue := d.invokeQueue ++ [t] }) }) :=
  applyCall_reg s id d c t hd ht

/-- Witness for C3: a `factory` call on the single module of `stateE`. -/
theorem angular_module_C3_witness :
    stateE.heap[0]? = some { name := "m", requires := [], invokeQueue := [], runBlocks := [] } ∧
    (regRecord (MCall.factory [7]) = some ("$provide", "factory", ([7] : List Nat)) ∧
     applyCall stateE 0 (MCall.factory [7]) =
       (0, { heap := [{ name := "m", requires := [],
                        invokeQueue := [("$provide", "factory", [7])], runBlocks := [] }],
             modules := [("m", some 0)] })) :=
  ⟨rfl, rfl,
   angular_module_C3 stateE 0 ⟨"m", [], [], []⟩ (MCall.factory [7])
     ("$provide", "factory", [7]) rfl rfl⟩

/-- C4: the registry memoizes by name — once `angular.module(name, requires)`
has created a descriptor, a subsequent `angular.module(name)` (requires
absent, any configFn) returns the very same descriptor reference and leaves
the state untouched: the descriptor-building factory does not run again. -/
theorem angular_module_C4 {α : Type} (s s2 : LoaderState α) (name : String) (rs : List String)
    (cfg cfg2 : Option α) (id : Nat)
    (h : module s name (some rs) cfg = (Except.ok id, s2)) :
    module s2 name none cfg2 = (Except.ok id, s2) :=
  module_then_retrieve s s2 name rs cfg cfg2 id h

/-- Witness for C4: create `"m"` on a fresh loader, then retrieve it. -/
theorem angular_module_C4_witness :
    module (setupModuleLoader Nat) "m" (some []) none = (Except.ok 0, stateE) ∧
    module stateE "m" none none = (Except.ok 0, stateE) :=
  ⟨rfl, angular_module_C4 (setupModuleLoader Nat) stateE "m" [] none none 0 rfl⟩

/-- C5: the `$exceptionHandler` service unconditionally forwards every call
to the logger's `error` method with the full argument list unchanged — for
any logger it is exactly `$log.error`, and on a collecting logger each call
appends exactly its own arguments, with no filtering or transformation. -/
theorem exceptionHandler_C5 {α β : Type} (log : LogService α β) (args : List α)
    (st : List (List α)) :
    ExceptionHandlerProviderGet log args = log.error args ∧
    ExceptionHandlerProviderGet (collectingLog α) args st = st ++ [args] :=
  ⟨rfl, rfl⟩

/-- C6: `run(fn)` appends `fn` to the module's run-block list and changes
nothing else (in particular the invoke queue is untouched), and two
successive `run` calls leave the callbacks in registration order. -/
theorem angular_module_C6 {α : Type} (s : LoaderState α) (id : Nat) (d : ModuleDesc α)
    (f g : α) (hd : s.heap[id]? = some d) :
    applyCall s id (MCall.run f) =
      (id, { s with heap := s.heap.set id ({ d with runBlocks := d.runBlocks ++ [f] }) }) ∧
    (applyCalls s id [MCall.run f, MCall.run g]).2.heap[id]? =
      some ({ d with runBlocks := d.runBlocks ++ [f, g] }) := by
  have hlt : id < s.heap.length := (List.getElem?_eq_some_iff.mp hd).1
  refine ⟨applyCall_run_eq s id d f hd, ?_⟩
  rw [applyCalls_spec [MCall.run f, MCall.run g] s id d hd]
  show (s.heap.set id _)[id]? = _
  rw [List.getElem?_set_self hlt]
  simp [recordedTuples, runFns, regRecord]

/-- Witness for C6: two run blocks on the single module of `stateE`. -/
theorem angular_module_C6_witness :
    stateE.heap[0]? = some { name := "m", requires := [], invokeQueue := [], runBlocks := [] } ∧
    (applyCall stateE 0 (MCall.run 5) =
       (0, { heap := [{ name := "m", requires := [], invokeQueue := [], runBlocks := [5] }],
             modules := [("m", some 0)] }) ∧
     (applyCalls stateE 0 [MCall.run 5, MCall.run 6]).2.heap[0]? =
       some { name := "m", requires := [], invokeQueue := [], runBlocks := [5, 6] }) :=
  ⟨rfl, angular_module_C6 stateE 0 ⟨"m", [], [], []⟩ 5 6 rfl⟩

/-- C7: both queues are FIFO and order-preserving — after any sequence of
public-method calls the module's invoke queue is the old queue followed by
exactly the recorded `[provider, method, arguments]` tuples in call order,
the run-block list is the old list followed by the run callbacks in call
order, and nothing else in the loader state changes. -/
theorem angular_module_C7 {α : Type} (s : LoaderState α) (id : Nat) (d : ModuleDesc α)
    (cs : List (MCall α)) (hd : s.heap[id]? = some d) :
    applyCalls s id cs =
      (id, { s with heap := s.heap.set id ({ d with
        invokeQueue := d.invokeQueue ++ recordedTuples cs,
        runBlocks := d.runBlocks ++ runFns cs }) }) :=
  applyCalls_spec cs s id d hd

/-- Witness for C7: a factory, a run block and a constant in sequence. -/
theorem angular_module_C7_witness :
    stateE.heap[0]? = some { name := "m", requires := [], invokeQueue := [], runBlocks := [] } ∧
    applyCalls stateE 0 [MCall.factory [1], MCall.run 2, MCall.constant [3]] =
      (0, { heap := [{ name := "m", requires := [],
                       invokeQueue := [("$provide", "factory", [1]),
                         ("$provide", "constant", [3])],
                       runBlocks := [2] }],
            modules := [("m", some 0)] }) :=
  ⟨rfl,
   angular_module_C7 stateE 0 ⟨"m", [], [], []⟩
     [MCall.factory [1], MCall.run 2, MCall.constant [3]] rfl⟩

/-- C8: every public method of a module descriptor returns the module
descriptor itself (the same reference), so fluent chaining of any sequence
of calls always yields the very same instance it started from. -/
theorem angular_module_C8 {α : Type} (s : LoaderState α) (id : Nat) (c : MCall α)
    (cs : List (MCall α)) :
    (applyCall s id c).1 = id ∧ (applyCalls s id cs).1 = id :=
  ⟨applyCall_fst s id c, applyCalls_fst cs s id⟩

/-- C9: `constant(...)` appends its `['$provide', 'constant', arguments]`
tuple at the TAIL of the invoke queue exactly like every other registration
method — the `'unshift'` insert method requested at its definition is
ignored — so a constant registered after a provider sits after that
provider in the queue. -/
theorem angular_module_C9 {α : Type} (s : LoaderState α) (id : Nat) (d : ModuleDesc α)
    (cargs pargs : List α) (hd : s.heap[id]? = some d) :
    applyCall s id (MCall.constant cargs) =
      (id, { s with heap := s.heap.set id ({ d with
        invokeQueue := d.invokeQueue ++ [("$provide", "constant", cargs)] }) }) ∧
    (applyCalls s id [MCall.provider pargs, MCall.constant cargs]).2.heap[id]? =
      some ({ d with invokeQueue := d.invokeQueue ++
        [("$provide", "provider", pargs), ("$provide", "constant", cargs)] }) := by
  have hlt : id < s.heap.length := (List.getElem?_eq_some_iff.mp hd).1
  refine ⟨applyCall_reg s id d (MCall.constant cargs) _ hd rfl, ?_⟩
  rw [applyCalls_spec _ s id d hd]
  show (s.heap.set id _)[id]? = _
  rw [List.getElem?_set_self hlt]
  simp [recordedTuples, runFns, regRecord]

/-- Witness for C9: a provider then a constant on the module of `stateE`. -/
theorem angular_module_C9_witness :
    stateE.heap[0]? = some { name := "m", requires := [], invokeQueue := [], runBlocks := [] } ∧
    (applyCall stateE 0 (MCall.constant [9]) =
       (0, { heap := [{ name := "m", requires := [],
                        invokeQueue := [("$provide", "constant", [9])], runBlocks := [] }],
             modules := [("m", some 0)] }) ∧
     (applyCalls stateE 0 [MCall.provider [8], MCall.constant [9]]).2.heap[0]? =
       some { name := "m", requires := [],
              invokeQueue := [("$provide", "provider", [8]), ("$provide", "constant", [9])],
              runBlocks := [] }) :=
  ⟨rfl, angular_module_C9 stateE 0 ⟨"m", [], [], []⟩ [9] [8] rfl⟩

/-- C10: a failed retrieval is atomic — when the name is unregistered and no
dependency list is supplied, `module` throws and the whole loader state
(registry bindings and every module's queues) is exactly what it was, and a
later call with a dependency list still creates the module normally. -/
theorem angular_module_C10 {α : Type} (s : LoaderState α) (name : String) (cfg cfg2 : Option α)
    (rs : List String) (h : hasBinding s.modules name = false) :
    module s name none cfg = (Except.error ("No module: " ++ name), s) ∧
    (module s name (some rs) cfg2).1 = Except.ok s.heap.length ∧
    (module s name (some rs) cfg2).2.heap[s.heap.length]? = some (buildModule name rs cfg2) ∧
    lookupTruthy (module s name (some rs) cfg2).2.modules name = some s.heap.length := by
  have hm := module_some_of_no_binding s name rs cfg2 h
  refine ⟨module_none_of_no_binding s name cfg h, ?_, ?_, ?_⟩
  · rw [hm]
  · rw [hm]
    exact List.getElem?_concat_length _ _
  · rw [hm]
    exact lookupTruthy_setBinding _ name _

/-- Witness for C10 on a fresh loader with the name `"x"`, including a
configFn on the creating call. -/
theorem angular_module_C10_witness :
    hasBinding (setupModuleLoader Nat).modules "x" = false ∧
    (module (setupModuleLoader Nat) "x" none none =
       (Except.error ("No module: " ++ "x"), setupModuleLoader Nat) ∧
     (module (setupModuleLoader Nat) "x" (some ["ng"]) (some 4)).1 = Except.ok 0 ∧
     (module (setupModuleLoader Nat) "x" (some ["ng"]) (some 4)).2.heap[0]? =
       some (buildModule "x" ["ng"] (some 4)) ∧
     lookupTruthy (module (setupModuleLoader Nat) "x" (some ["ng"]) (some 4)).2.modules "x" =
       some 0) :=
  ⟨rfl, angular_module_C10 (setupModuleLoader Nat) "x" none (some 4) ["ng"] rfl⟩
